import Mathlib

/-!
Verification of the availability-and-booking orchestration core of the barber
appointment frontend (`src/App.jsx`).  The JavaScript functions are shallowly
embedded as pure Lean functions; network responses are passed in as explicit
`Outcome` oracle values, and the state updates performed by the React setters
are modelled as functional updates of an `AppState` record.
-/

namespace Booking

/-! ## JS number / string primitives used by `combineDateTime` (App.jsx 111-117) -/

/-- Splitting a character list on a single separator character, matching the
behaviour of JS `String.prototype.split` with a one-character separator
(`"".split(c)` gives `[""]`, adjacent separators give empty pieces). -/
def splitOnChar (c : Char) : List Char → List (List Char)
  | [] => [[]]
  | x :: xs =>
    let r := splitOnChar c xs
    if x = c then [] :: r
    else
      match r with
      | [] => [[x]]
      | y :: ys => (x :: y) :: ys

/-- ASCII whitespace test used to model the trimming that JS `Number()`
performs on its string argument. -/
def isWsChar (c : Char) : Bool :=
  c = ' ' || c = '\t' || c = '\n' || c = '\r'

def trimChars (l : List Char) : List Char :=
  ((l.dropWhile isWsChar).reverse.dropWhile isWsChar).reverse

/-- JS `Number(s)` on the integer fragment of the numeric-string grammar:
whitespace is trimmed, the empty string converts to `0`, an optional sign
followed by decimal digits converts to that integer, and anything else is
`NaN`, modelled as `none`.  The date/time `<input>` values only ever produce
empty or pure-digit pieces, so the fraction/exponent/hex forms of the grammar
never arise here. -/
def jsNum (s : List Char) : Option Int :=
  let t := trimChars s
  match t with
  | [] => some 0
  | c :: cs =>
    if c = '-' then (digitsToNatNE cs).map (fun n => -(n : Int))
    else if c = '+' then (digitsToNatNE cs).map (fun n => (n : Int))
    else (digitsToNatNE t).map (fun n => (n : Int))
where
  /-- digits, requiring at least one -/
  digitsToNatNE : List Char → Option Nat
    | [] => none
    | l => digitsToReversed l
  digitsToReversed (l : List Char) : Option Nat :=
    l.foldl (fun acc c =>
      match acc with
      | none => none
      | some n => if c.isDigit then some (n * 10 + (c.toNat - 48)) else none)
      (some 0)

/-- JS `Number(piece)` where `piece` is `parts[i]` of a destructured split:
a missing element is `undefined`, and `Number(undefined)` is `NaN`. -/
def jsNumAt (parts : List (List Char)) (i : Nat) : Option Int :=
  match parts.get? i with
  | none => none
  | some p => jsNum p

/-! ## Proleptic-Gregorian day arithmetic (the ECMAScript `MakeDay`/`DateFromTime` model) -/

/-- Days since the Unix epoch of the civil date `(y, m, d)` with `1 ≤ m ≤ 12`
(`d` may be out of range; extra days roll over linearly exactly as in the
ECMAScript `MakeDay` computation). -/
def daysFromCivil (y m d : Int) : Int :=
  let y1 := if m ≤ 2 then y - 1 else y
  let era := Int.fdiv y1 400
  let yoe := y1 - era * 400
  let mp := Int.emod (m + 9) 12
  let doy := Int.fdiv (153 * mp + 2) 5 + d - 1
  let doe := yoe * 365 + Int.fdiv yoe 4 - Int.fdiv yoe 100 + doy
  era * 146097 + doe - 719468

/-- Inverse of `daysFromCivil`: the civil `(year, month, day)` of a Unix
epoch-day count. -/
def civilFromDays (z0 : Int) : Int × Int × Int :=
  let z := z0 + 719468
  let era := Int.fdiv z 146097
  let doe := z - era * 146097
  let yoe := Int.fdiv (doe - Int.fdiv doe 1460 + Int.fdiv doe 36524 - Int.fdiv doe 146096) 365
  let y := yoe + era * 400
  let doy := doe - (365 * yoe + Int.fdiv yoe 4 - Int.fdiv yoe 100)
  let mp := Int.fdiv (5 * doy + 2) 153
  let d := doy - Int.fdiv (153 * mp + 2) 5 + 1
  let m := if mp < 10 then mp + 3 else mp - 9
  (if m ≤ 2 then y + 1 else y, m, d)

/-- `Date.UTC(y, mo, d, h, mi, 0)` in milliseconds (`mo` is the 0-based month
argument).  Reproduces the two ECMAScript quirks the source inherits: a year
argument in `0..99` is mapped to `1900 + year`, and out-of-range month/day
arguments roll over.  Returns `none` (an invalid time value) outside the
±8.64e15 ms range. -/
def jsDateUTC (y mo d h mi : Int) : Option Int :=
  let yr := if 0 ≤ y ∧ y ≤ 99 then y + 1900 else y
  let ym := yr + Int.fdiv mo 12
  let mn := Int.emod mo 12
  let t := (daysFromCivil ym (mn + 1) d) * 86400000 + h * 3600000 + mi * 60000
  if -8640000000000000 ≤ t ∧ t ≤ 8640000000000000 then some t else none

def natDigitsAux : Nat → Nat → List Char
  | 0, _ => []
  | _ + 1, 0 => []
  | fuel + 1, n => natDigitsAux fuel (n / 10) ++ [Char.ofNat (48 + n % 10)]

def natToChars (n : Nat) : List Char :=
  if n = 0 then ['0'] else natDigitsAux (n + 1) n

/-- Decimal rendering of `n` left-padded with zeros to width `w`. -/
def padNat (w : Nat) (n : Nat) : List Char :=
  let s := natToChars n
  List.replicate (w - s.length) '0' ++ s

/-- The year field of `toISOString`: four padded digits for years `0..9999`,
otherwise the expanded `±YYYYYY` form. -/
def isoYearChars (y : Int) : List Char :=
  if 0 ≤ y ∧ y ≤ 9999 then padNat 4 y.toNat
  else if y < 0 then '-' :: padNat 6 (-y).toNat
  else '+' :: padNat 6 y.toNat

/-- `new Date(ms).toISOString()` for a valid (integral, in-range) time value. -/
def toIsoString (ms : Int) : String :=
  let days := Int.fdiv ms 86400000
  let msOfDay := Int.emod ms 86400000
  let c := civilFromDays days
  let h := Int.fdiv msOfDay 3600000
  let mi := Int.emod (Int.fdiv msOfDay 60000) 60
  let sec := Int.emod (Int.fdiv msOfDay 1000) 60
  let milli := Int.emod msOfDay 1000
  String.mk (isoYearChars c.1 ++ '-' :: padNat 2 c.2.1.toNat ++ '-' :: padNat 2 c.2.2.toNat
    ++ 'T' :: padNat 2 h.toNat ++ ':' :: padNat 2 mi.toNat ++ ':' :: padNat 2 sec.toNat
    ++ '.' :: padNat 3 milli.toNat ++ ['Z'])

/-! ## The time normalizer (`combineDateTime`, App.jsx 111-117) -/

/-- `combineDateTime(dateStr, timeStr)` (App.jsx 111-117).  `Except.ok none`
is the JS `null` return for a missing component; `Except.ok (some iso)` is the
returned ISO-8601 UTC string; `Except.error msg` models the `RangeError`
(message "Invalid time value") that `toISOString` throws when any parsed
component is `NaN` and the constructed `Date` is invalid. -/
def combineDateTime (dateStr timeStr : String) : Except String (Option String) :=
  if dateStr = "" || timeStr = "" then Except.ok none
  else
    let dparts := splitOnChar '-' dateStr.toList
    let tparts := splitOnChar ':' timeStr.toList
    match jsNumAt dparts 0, jsNumAt dparts 1, jsNumAt dparts 2,
          jsNumAt tparts 0, jsNumAt tparts 1 with
    | some y, some mo, some d, some h, some mi =>
      match jsDateUTC y (mo - 1) d h mi with
      | some ms => Except.ok (some (toIsoString ms))
      | none => Except.error "Invalid time value"
    | _, _, _, _, _ => Except.error "Invalid time value"

/-! ## Data model (App.jsx 42-62) -/

structure Barber where
  id : String
  name : String
deriving DecidableEq, Repr

structure Service where
  name : String
  price : Int
  duration_min : Int
deriving DecidableEq, Repr

structure Reservation where
  id : String
  customer_name : String
  customer_phone : String
  barber_id : String
  service_name : String
  start_time : String
  end_time : String
  status : String
  notes : Option String
deriving DecidableEq, Repr

/-- The availability-status triple (App.jsx 49). -/
structure Availability where
  checking : Bool
  available : Option Bool
  message : String
deriving DecidableEq, Repr

/-- The neutral availability state `{ checking: false, available: null, message: '' }`. -/
def neutralAvailability : Availability :=
  { checking := false, available := none, message := "" }

/-- The booking form / draft (App.jsx 51-59). -/
structure Form where
  customer_name : String
  customer_phone : String
  barber_id : String
  service_name : String
  start_date : String
  start_time : String
  notes : String
deriving DecidableEq, Repr

/-- The component state owned by `App` (App.jsx 42-59). -/
structure AppState where
  loading : Bool
  error : String
  barbers : List Barber
  services : List Service
  appointments : List Reservation
  availability : Availability
  form : Form
deriving DecidableEq, Repr

/-- Outcome of one `fetch` call, as the code distinguishes them: `ok v` is an
ok response whose JSON body parsed to `v`; `httpErr detail` is a response with
`res.ok` false (with the parsed `detail` field of the body, where the code
reads one); `netErr msg` is the `fetch` promise itself rejecting with an error
whose `message` is `msg`. -/
inductive Outcome (α : Type) where
  | ok (v : α)
  | httpErr (detail : Option String)
  | netErr (msg : String)
deriving DecidableEq, Repr

def isErr {α : Type} : Outcome α → Bool
  | .ok _ => false
  | _ => true

def isNetErr {α : Type} : Outcome α → Bool
  | .netErr _ => true
  | _ => false

/-- The availability a barber is credited with during the fan-out
(App.jsx 153-156): `!!data.available` on an ok response, and `true`
(fail-open) on a non-ok response. -/
def availOf : Outcome Bool → Bool
  | .ok a => a
  | .httpErr _ => true
  | .netErr _ => true

/-- Network endpoints the modelled operations can hit; returned as a call
trace so that "no network call is made" is a statement about the model. -/
inductive NetCall where
  | check
  | create
  | listAppointments
  | cancelReq
deriving DecidableEq, Repr

/-- `duration_min` (App.jsx 61-62): `services.find(...)?.duration_min || 30`,
where JS `||` replaces a falsy (`0`) duration, or a failed lookup, by 30. -/
def duration_min (services : List Service) (service_name : String) : Int :=
  match services.find? (fun s => s.name == service_name) with
  | some s => if s.duration_min == 0 then 30 else s.duration_min
  | none => 30

/-- `fetchAppointments` (App.jsx 90-98): replaces the appointment list on a
successful fetch; any failure is swallowed (`console.error` only) and the
state is left unchanged. -/
def fetchAppointments (st : AppState) (refresh : Outcome (List Reservation)) : AppState :=
  match refresh with
  | .ok l => { st with appointments := l }
  | _ => st

/-! ## Resource filter (`filterBarbersByAvailability`, App.jsx 143-163) -/

/-- The fan-out/reduce part of `filterBarbersByAvailability` (App.jsx 146-162),
reached once a non-null `startIso` and a truthy duration are in hand: one
probe per barber via `Promise.all`; a rejected probe rejects the whole
`Promise.all` and the surrounding `catch` returns the unfiltered list, while a
non-ok response is counted as available (fail-open). -/
def fanOutFilter (allBarbers : List Barber) (dur : Int) (probe : Barber → Outcome Bool) :
    List Barber :=
  if dur == 0 then allBarbers
  else if allBarbers.any (fun b => isNetErr (probe b)) then allBarbers
  else allBarbers.filter (fun b => availOf (probe b))

/-- `filterBarbersByAvailability(allBarbers)` (App.jsx 143-163).  It first
computes `combineDateTime(form.start_date, form.start_time)` outside the
`try` block, so a throwing normalizer propagates (`Except.error`); a null
instant returns the list unfiltered. -/
def filterBarbersByAvailability (allBarbers : List Barber) (start_date start_time : String)
    (dur : Int) (probe : Barber → Outcome Bool) : Except String (List Barber) :=
  match combineDateTime start_date start_time with
  | .error m => .error m
  | .ok none => .ok allBarbers
  | .ok (some _) => .ok (fanOutFilter allBarbers dur probe)

/-- The selection fix-up in the re-derivation effect (App.jsx 172-175):
`if (form.barber_id && !filtered.find(b => b.id === form.barber_id))`
then `barber_id := filtered[0]?.id || ''`. -/
def reassignBarber (sel : String) (filtered : List Barber) : String :=
  if sel != "" && (filtered.find? (fun b => b.id == sel)).isNone then
    match filtered.head? with
    | some b => if b.id == "" then "" else b.id
    | none => ""
  else sel

/-! ## Catalog load service pricing (App.jsx 76) -/

/-- The service-list transformation applied on catalog load (App.jsx 76):
`sData.map(s => s.name === 'Haircut' ? { ...s, price: 18 } : s)`. -/
def overrideServices (sData : List Service) : List Service :=
  sData.map (fun s => if s.name == "Haircut" then { s with price := 18 } else s)

/-! ## Submission (`submit`, App.jsx 180-237) -/

/-- `submit` (App.jsx 180-237) as a function of the pre-submission state and
the outcomes of the three network calls it may issue (final availability
check, create, reservation-list refresh).  Returns the post-submission state
and the trace of calls actually sent.  The `catch` sets `error` to the thrown
error's `message`, and the `finally` clears `loading`. -/
def submit (st0 : AppState) (chk : Outcome Bool) (create : Outcome Unit)
    (refresh : Outcome (List Reservation)) : AppState × List NetCall :=
  let st := { st0 with loading := true, error := "" }
  match combineDateTime st.form.start_date st.form.start_time with
  | .error msg => ({ st with error := msg, loading := false }, [])
  | .ok none => ({ st with error := "Please select a date and time", loading := false }, [])
  | .ok (some _) =>
    match chk with
    | .netErr m => ({ st with error := m, loading := false }, [.check])
    | .httpErr _ =>
      ({ st with error := "Unable to verify availability", loading := false }, [.check])
    | .ok avail =>
      if !avail then
        let st := { st with error := "That time was just taken. Please choose another slot.",
                            loading := false }
        (fetchAppointments st refresh, [.check, .listAppointments])
      else
        match create with
        | .netErr m => ({ st with error := m, loading := false }, [.check, .create])
        | .httpErr detail =>
          let msg := match detail with
            | some d => if d = "" then "Failed to book appointment" else d
            | none => "Failed to book appointment"
          ({ st with error := msg, loading := false }, [.check, .create])
        | .ok _ =>
          let st := fetchAppointments st refresh
          let st := { st with
            form := { st.form with start_date := "", start_time := "", notes := "" },
            availability := neutralAvailability,
            loading := false }
          (st, [.check, .create, .listAppointments])

/-! ## Cancellation (`cancel`, App.jsx 239-247) -/

/-- `cancel(id)` (App.jsx 239-247): a non-ok response throws
"Failed to cancel appointment", a rejected fetch surfaces its own message, and
only a successful cancel triggers `fetchAppointments`. -/
def cancel (st : AppState) (outcome : Outcome Unit)
    (refresh : Outcome (List Reservation)) : AppState × List NetCall :=
  match outcome with
  | .ok _ => (fetchAppointments st refresh, [.cancelReq, .listAppointments])
  | .httpErr _ => ({ st with error := "Failed to cancel appointment" }, [.cancelReq])
  | .netErr m => ({ st with error := m }, [.cancelReq])

/-! ## Probe-race model (`checkAvailability` + effect, App.jsx 120-140, 166-178)

The re-derivation effect issues a fresh `checkAvailability()` on every
relevant input change, and each probe, when it resolves, writes the
availability status unconditionally (App.jsx 136 and 138) — there is no
generation counter or cancellation.  The asynchronous behaviour is embedded
as a trace of issue/complete events over the UI state: `issue k` is the
effect firing for query key `k`, and `complete i r` is the `i`-th issued
probe resolving with result `r` (`some b` for an ok response, `none` for the
"Unable to check availability" failure state) and performing its
unconditional `setAvailability`. -/

structure ProbeKey where
  barber_id : String
  start_time : String
  duration_min : Int
deriving DecidableEq, Repr

inductive ProbeEvent where
  | issue (k : ProbeKey)
  | complete (i : Nat) (result : Option Bool)
deriving DecidableEq, Repr

/-- UI-facing probe state: the list of probes issued so far (the key of the
last one is the selection currently typed) and the displayed availability,
tagged with the key of the probe that wrote it. -/
structure ProbeUiState where
  issued : List ProbeKey
  display : Option (ProbeKey × Option Bool)
deriving DecidableEq, Repr

def stepProbe (s : ProbeUiState) : ProbeEvent → ProbeUiState
  | .issue k => { s with issued := s.issued ++ [k] }
  | .complete i r =>
    match s.issued.get? i with
    | some k => { s with display := some (k, r) }
    | none => s

def runProbes (es : List ProbeEvent) : ProbeUiState :=
  es.foldl stepProbe { issued := [], display := none }

/-- The displayed availability is stale when it was written by a probe for a
key other than the last-issued (currently typed) one. -/
def staleDisplayed (s : ProbeUiState) : Bool :=
  match s.display, s.issued.getLast? with
  | some (k, _), some kLast => k != kLast
  | _, _ => false

/-! ## Shared helper lemmas and sample data -/

theorem any_eq_false_filter {α : Type} (l : List α) (p q : α → Bool)
    (h : l.any q = false) : (l.filter p).any q = false := by
  simp only [List.any_eq_false] at h ⊢
  intro x hx
  exact h x (List.mem_of_mem_filter hx)

theorem filter_idem {α : Type} (l : List α) (p : α → Bool) :
    (l.filter p).filter p = l.filter p := by
  induction l with
  | nil => rfl
  | cons a l ih =>
    by_cases h : p a = true
    · simp [List.filter_cons, h, ih]
    · simp [List.filter_cons, h, ih]

theorem find_barber_isSome (l : List Barber) (sel : String)
    (h : sel ∈ l.map Barber.id) : (l.find? (fun b => b.id == sel)).isSome = true := by
  rcases List.mem_map.mp h with ⟨b, hb, hid⟩
  have hp : (fun b : Barber => b.id == sel) b = true := by simp [hid]
  exact List.find?_isSome.mpr ⟨b, hb, hp⟩

def sampleForm : Form :=
  { customer_name := "Alex Doe", customer_phone := "555-1234", barber_id := "b1",
    service_name := "Haircut", start_date := "2024-06-01", start_time := "10:00",
    notes := "" }

def sampleState : AppState :=
  { loading := false, error := "", barbers := [Barber.mk "b1" "A"],
    services := [{ name := "Haircut", price := 18, duration_min := 30 }],
    appointments := [], availability := neutralAvailability, form := sampleForm }

/-! ## Claim C4 — the time normalizer -/

/-- C4 counterexample: the claim quantifies over every pair of input strings,
but on the malformed pair `("x", "10:00")` the normalizer neither returns
null nor returns an instant — `toISOString` on the invalid date throws a
`RangeError` ("Invalid time value"). -/
theorem c4_counterexample :
    combineDateTime "x" "10:00" = Except.error "Invalid time value" := by rfl

/-- C4 (amended): if either input string is empty the normalizer returns null,
and on well-formed inputs it returns a fixed reproducible UTC instant
determined solely by the two strings (the model takes no clock input because
`Date.UTC`/`toISOString` never read the local clock). -/
theorem c4_normalizer :
    (∀ d t : String, d = "" ∨ t = "" → combineDateTime d t = Except.ok none)
    ∧ combineDateTime "2024-01-01" "10:00"
        = Except.ok (some "2024-01-01T10:00:00.000Z") := by
  constructor
  · intro d t h
    rcases h with h | h <;> simp [combineDateTime, h]
  · rfl

/-- C4 witness: the amended theorem applied at the spec's own example inputs. -/
theorem c4_witness :
    (("" : String) = "" ∨ ("10:00" : String) = "")
    ∧ combineDateTime "" "10:00" = Except.ok none :=
  ⟨Or.inl rfl, c4_normalizer.1 "" "10:00" (Or.inl rfl)⟩

/-! ## Claim C10 — Haircut price override on catalog load -/

/-- C10: on catalog load the service list is mapped so that a service named
"Haircut" has its price overwritten to 18, while every other service is
stored unchanged and the list keeps its length and order. -/
theorem c10_haircut_override (sData : List Service) (i : Nat) (s : Service)
    (h : sData[i]? = some s) :
    (overrideServices sData).length = sData.length
    ∧ (s.name = "Haircut" → (overrideServices sData)[i]? = some { s with price := 18 })
    ∧ (s.name ≠ "Haircut" → (overrideServices sData)[i]? = some s) := by
  refine ⟨by simp [overrideServices], ?_, ?_⟩
  · intro hn
    simp [overrideServices, List.getElem?_map, h, hn]
  · intro hn
    simp [overrideServices, List.getElem?_map, h, hn]

/-- C10 witness: a two-service catalog where the Haircut entry's price 25 is
replaced by 18. -/
theorem c10_witness :
    ([Service.mk "Haircut" 25 30, Service.mk "Shave" 10 15][0]?
        = some (Service.mk "Haircut" 25 30))
    ∧ (overrideServices [Service.mk "Haircut" 25 30, Service.mk "Shave" 10 15])[0]?
        = some (Service.mk "Haircut" 18 30) :=
  ⟨rfl, (c10_haircut_override [Service.mk "Haircut" 25 30, Service.mk "Shave" 10 15]
    0 (Service.mk "Haircut" 25 30) rfl).2.1 rfl⟩

/-! ## Claim C8 — cancellation -/

/-- C8: `cancel` on a successful response refreshes the reservation list from
the ledger and touches nothing else; on a non-ok response or a transport
rejection it only surfaces an error message (the fixed message, resp. the
rejection's own message), leaving the reservation list, draft and selections
unchanged, and issues no refresh — there is no optimistic local removal. -/
theorem c8_cancel (st : AppState) (l : List Reservation) (d : Option String)
    (m : String) (rf : Outcome (List Reservation)) :
    ((cancel st (.ok ()) (.ok l)).1.appointments = l
      ∧ (cancel st (.ok ()) (.ok l)).1.form = st.form
      ∧ (cancel st (.ok ()) (.ok l)).1.barbers = st.barbers
      ∧ (cancel st (.ok ()) (.ok l)).1.services = st.services
      ∧ (cancel st (.ok ()) (.ok l)).1.error = st.error
      ∧ (cancel st (.ok ()) (.ok l)).2 = [NetCall.cancelReq, NetCall.listAppointments])
    ∧ ((cancel st (.httpErr d) rf).1 = { st with error := "Failed to cancel appointment" }
      ∧ (cancel st (.httpErr d) rf).2 = [NetCall.cancelReq])
    ∧ ((cancel st (.netErr m) rf).1 = { st with error := m }
      ∧ (cancel st (.netErr m) rf).2 = [NetCall.cancelReq]) :=
  ⟨⟨rfl, rfl, rfl, rfl, rfl, rfl⟩, ⟨rfl, rfl⟩, ⟨rfl, rfl⟩⟩

/-! ## Claim C5 — selection reassignment after filtering -/

/-- C5: in a re-derivation pass, when a (non-empty) selected barber id is
absent from the newly filtered list the selection is reassigned to the first
entry's id (or to the empty "no selection" value when the list is empty,
which is exactly `(filtered.head?.map Barber.id).getD ""`), and a selection
already present in the list is left unchanged. -/
theorem c5_reassign (sel : String) (filtered : List Barber) (hsel : sel ≠ "") :
    ((∀ b ∈ filtered, b.id ≠ sel) →
        reassignBarber sel filtered = (filtered.head?.map Barber.id).getD "")
    ∧ (sel ∈ filtered.map Barber.id → reassignBarber sel filtered = sel) := by
  constructor
  · intro habs
    have hfind : filtered.find? (fun b => b.id == sel) = none := by
      rw [List.find?_eq_none]
      intro x hx
      simpa using habs x hx
    unfold reassignBarber
    rw [hfind]
    have hne : (sel != "") = true := by simpa using hsel
    rw [hne]
    cases filtered with
    | nil => rfl
    | cons b bs =>
      simp only [List.head?, Option.map_some, Option.getD_some]
      by_cases hid : b.id = ""
      · simp [hid]
      · simp [hid]
  · intro hmem
    have hs := find_barber_isSome filtered sel hmem
    unfold reassignBarber
    cases hfind : filtered.find? (fun b => b.id == sel) with
    | none => rw [hfind] at hs; simp at hs
    | some b => simp

/-- C5 witness: selection "b2" is absent from the one-element list `[b1]`, so
it is reassigned to the first entry "b1". -/
theorem c5_witness :
    ("b2" : String) ≠ ""
    ∧ ((∀ b ∈ [Barber.mk "b1" "A"], b.id ≠ "b2") →
        reassignBarber "b2" [Barber.mk "b1" "A"]
          = (([Barber.mk "b1" "A"].head?.map Barber.id).getD "")) :=
  ⟨by decide, (c5_reassign "b2" [Barber.mk "b1" "A"] (by decide)).1⟩

/-! ## Claim C3 — fail-open fan-out filter -/

/-- C3: with a valid instant and a truthy duration, every barber whose probe
fails (non-ok response or transport rejection) is kept in the filtered list
(fail-open), and when every probe in the fan-out errors the filtered list is
the full unfiltered catalog. -/
theorem c3_fail_open (allB : List Barber) (d t iso : String) (dur : Int)
    (probe : Barber → Outcome Bool)
    (hiso : combineDateTime d t = Except.ok (some iso)) (hdur : dur ≠ 0) :
    filterBarbersByAvailability allB d t dur probe
        = Except.ok (fanOutFilter allB dur probe)
    ∧ (∀ b ∈ allB, isErr (probe b) = true → b ∈ fanOutFilter allB dur probe)
    ∧ ((∀ b ∈ allB, isErr (probe b) = true) → fanOutFilter allB dur probe = allB) := by
  have hd : (dur == 0) = false := by simpa using hdur
  refine ⟨by simp [filterBarbersByAvailability, hiso], ?_, ?_⟩
  · intro b hb herr
    unfold fanOutFilter
    rw [hd]
    simp only [Bool.false_eq_true, if_false]
    cases hany : allB.any (fun b => isNetErr (probe b)) with
    | true => simpa using hb
    | false =>
      simp only [Bool.false_eq_true, if_false]
      have hnn : isNetErr (probe b) = false := by
        rw [List.any_eq_false] at hany
        simpa using hany b hb
      have hav : availOf (probe b) = true := by
        cases hpb : probe b with
        | ok a => rw [hpb] at herr; simp [isErr] at herr
        | httpErr e => rfl
        | netErr m => rw [hpb] at hnn; simp [isNetErr] at hnn
      exact List.mem_filter.mpr ⟨hb, hav⟩
  · intro hall
    unfold fanOutFilter
    rw [hd]
    simp only [Bool.false_eq_true, if_false]
    cases hany : allB.any (fun b => isNetErr (probe b)) with
    | true => simp
    | false =>
      simp only [Bool.false_eq_true, if_false]
      apply List.filter_eq_self.mpr
      intro b hb
      have hnn : isNetErr (probe b) = false := by
        rw [List.any_eq_false] at hany
        simpa using hany b hb
      cases hpb : probe b with
      | ok a =>
        have := hall b hb
        rw [hpb] at this
        simp [isErr] at this
      | httpErr e => rfl
      | netErr m => rw [hpb] at hnn; simp [isNetErr] at hnn

/-- C3 witness: a one-barber catalog where the single probe returns a non-ok
response; the wrapper reaches the fan-out with the computed instant. -/
theorem c3_witness :
    combineDateTime "2024-06-01" "10:00"
      = Except.ok (some "2024-06-01T10:00:00.000Z")
    ∧ (30 : Int) ≠ 0
    ∧ ((∀ b ∈ [Barber.mk "b1" "A"],
          isErr ((fun _ : Barber => (Outcome.httpErr none : Outcome Bool)) b) = true) →
        fanOutFilter [Barber.mk "b1" "A"] 30 (fun _ => Outcome.httpErr none)
          = [Barber.mk "b1" "A"]) :=
  ⟨by rfl, by decide,
    (c3_fail_open [Barber.mk "b1" "A"] "2024-06-01" "10:00" "2024-06-01T10:00:00.000Z"
      30 (fun _ => Outcome.httpErr none) (by rfl) (by decide)).2.2⟩

/-! ## Claim C9 — filter idempotence and selection stability -/

/-- C9: the resource filter is a pure function of its inputs (two runs with
identical catalog, instant, duration and probe answers give identical
results), running the fan-out again on its own output with the same probe
answers changes nothing, and a selected barber already present in the result
is not changed by the reassignment step. -/
theorem c9_idempotent (allB : List Barber) (d t : String) (dur : Int)
    (probe : Barber → Outcome Bool) (sel : String)
    (hsel : sel ∈ (fanOutFilter allB dur probe).map Barber.id) :
    filterBarbersByAvailability allB d t dur probe
        = filterBarbersByAvailability allB d t dur probe
    ∧ fanOutFilter (fanOutFilter allB dur probe) dur probe = fanOutFilter allB dur probe
    ∧ reassignBarber sel (fanOutFilter allB dur probe) = sel := by
  refine ⟨rfl, ?_, ?_⟩
  · cases hd : (dur == 0) with
    | true => simp [fanOutFilter, hd]
    | false =>
      cases hany : allB.any (fun b => isNetErr (probe b)) with
      | true =>
        have h1 : fanOutFilter allB dur probe = allB := by
          simp [fanOutFilter, hd, hany]
        rw [h1]
        exact h1
      | false =>
        have h1 : fanOutFilter allB dur probe
            = allB.filter (fun b => availOf (probe b)) := by
          simp [fanOutFilter, hd, hany]
        rw [h1]
        have hany2 : (allB.filter (fun b => availOf (probe b))).any
            (fun b => isNetErr (probe b)) = false :=
          any_eq_false_filter allB _ _ hany
        simp only [fanOutFilter, hd, Bool.false_eq_true, if_false, hany2]
        exact filter_idem allB (fun b => availOf (probe b))
  · have hs := find_barber_isSome (fanOutFilter allB dur probe) sel hsel
    unfold reassignBarber
    cases hfind : (fanOutFilter allB dur probe).find? (fun b => b.id == sel) with
    | none => rw [hfind] at hs; simp at hs
    | some b => simp

/-- C9 witness: a one-barber catalog with an available probe answer; "b1" is
in the result and stays selected. -/
theorem c9_witness :
    ("b1" : String) ∈ (fanOutFilter [Barber.mk "b1" "A"] 30
        (fun _ => Outcome.ok true)).map Barber.id
    ∧ reassignBarber "b1" (fanOutFilter [Barber.mk "b1" "A"] 30
        (fun _ => Outcome.ok true)) = "b1" :=
  ⟨by decide,
    (c9_idempotent [Barber.mk "b1" "A"] "2024-06-01" "10:00" 30
      (fun _ => Outcome.ok true) "b1" (by decide)).2.2⟩

/-! ## Claim C1 — fail-closed final probe -/

/-- C1 counterexample: when the final check's `fetch` itself rejects (message
"Failed to fetch"), the submission ends with that rejection's message, not
with "Unable to verify availability", although the create request is indeed
never sent. -/
theorem c1_counterexample :
    (submit sampleState (.netErr "Failed to fetch") (.ok ()) (.ok [])).1.error
        = "Failed to fetch"
    ∧ (submit sampleState (.netErr "Failed to fetch") (.ok ()) (.ok [])).1.error
        ≠ "Unable to verify availability"
    ∧ NetCall.create ∉ (submit sampleState (.netErr "Failed to fetch") (.ok ()) (.ok [])).2 :=
  ⟨rfl, by decide, by decide⟩

/-- C1 (amended): whenever the final pre-commit probe fails, `createReservation`
is never invoked and no local state is committed (appointments and draft are
unchanged); the user-facing message is "Unable to verify availability" when
the probe's HTTP response is non-ok, and the transport rejection's own message
when the fetch itself rejects. -/
theorem c1_fail_closed (st : AppState) (chk : Outcome Bool) (create : Outcome Unit)
    (refresh : Outcome (List Reservation)) (iso : String)
    (hiso : combineDateTime st.form.start_date st.form.start_time
        = Except.ok (some iso))
    (herr : isErr chk = true) :
    NetCall.create ∉ (submit st chk create refresh).2
    ∧ (submit st chk create refresh).1.appointments = st.appointments
    ∧ (submit st chk create refresh).1.form = st.form
    ∧ (submit st chk create refresh).1.error
        = (match chk with
           | .httpErr _ => "Unable to verify availability"
           | .netErr m => m
           | .ok _ => "") := by
  cases chk with
  | ok a => simp [isErr] at herr
  | httpErr e =>
    simp [submit, hiso]
  | netErr m =>
    simp [submit, hiso]

/-- C1 witness: the amended theorem at a concrete state whose final probe
returns a non-ok response. -/
theorem c1_witness :
    combineDateTime sampleState.form.start_date sampleState.form.start_time
      = Except.ok (some "2024-06-01T10:00:00.000Z")
    ∧ isErr ((Outcome.httpErr none : Outcome Bool)) = true
    ∧ NetCall.create
        ∉ (submit sampleState (.httpErr none) (.ok ()) (.ok [])).2 :=
  ⟨by rfl, by rfl,
    (c1_fail_closed sampleState (.httpErr none) (.ok ()) (.ok [])
      "2024-06-01T10:00:00.000Z" (by rfl) (by rfl)).1⟩

/-! ## Claim C2 — local validation before submission -/

/-- C2 counterexample: a draft with an empty `barber_id` and empty
`service_name` (but a valid instant) is not rejected locally — the submit
routine sends the check and, on an available answer, the create request. -/
theorem c2_counterexample :
    ({ sampleState with form := { sampleForm with barber_id := "", service_name := "" }
      } : AppState).form.barber_id = ""
    ∧ (submit { sampleState with
          form := { sampleForm with barber_id := "", service_name := "" } }
        (.ok true) (.ok ()) (.ok [])).2
        = [NetCall.check, NetCall.create, NetCall.listAppointments] :=
  ⟨rfl, rfl⟩

/-- C2 (amended): only a null instant is rejected locally by the submit
routine: it sets the message "Please select a date and time" and makes no
network call, leaving draft and reservation list unchanged.  Missing name,
phone, barber or service do not block submission at this layer. -/
theorem c2_null_instant (st : AppState) (chk : Outcome Bool) (create : Outcome Unit)
    (refresh : Outcome (List Reservation))
    (hnone : combineDateTime st.form.start_date st.form.start_time = Except.ok none) :
    (submit st chk create refresh).2 = []
    ∧ (submit st chk create refresh).1.error = "Please select a date and time"
    ∧ (submit st chk create refresh).1.form = st.form
    ∧ (submit st chk create refresh).1.appointments = st.appointments := by
  simp [submit, hnone]

/-- C2 witness: the amended theorem at a state whose time field is empty. -/
theorem c2_witness :
    combineDateTime ({ sampleState with
        form := { sampleForm with start_time := "" } } : AppState).form.start_date
      ({ sampleState with
        form := { sampleForm with start_time := "" } } : AppState).form.start_time
      = Except.ok none
    ∧ (submit { sampleState with form := { sampleForm with start_time := "" } }
        (.ok true) (.ok ()) (.ok [])).2 = [] :=
  ⟨by rfl,
    (c2_null_instant { sampleState with form := { sampleForm with start_time := "" } }
      (.ok true) (.ok ()) (.ok []) (by rfl)).1⟩

/-! ## Claim C7 — frame effect of a successful submission -/

/-- C7: on a successful submission (final probe available, create accepted),
the draft's date, time and notes are cleared, the identity fields (name,
phone, barber, service) are unchanged, the availability status is reset to
neutral, and the reservation list is refreshed from the ledger. -/
theorem c7_success_frame (st : AppState) (iso : String) (l : List Reservation)
    (hiso : combineDateTime st.form.start_date st.form.start_time
        = Except.ok (some iso)) :
    (submit st (.ok true) (.ok ()) (.ok l)).1.form.start_date = ""
    ∧ (submit st (.ok true) (.ok ()) (.ok l)).1.form.start_time = ""
    ∧ (submit st (.ok true) (.ok ()) (.ok l)).1.form.notes = ""
    ∧ (submit st (.ok true) (.ok ()) (.ok l)).1.form.customer_name
        = st.form.customer_name
    ∧ (submit st (.ok true) (.ok ()) (.ok l)).1.form.customer_phone
        = st.form.customer_phone
    ∧ (submit st (.ok true) (.ok ()) (.ok l)).1.form.barber_id = st.form.barber_id
    ∧ (submit st (.ok true) (.ok ()) (.ok l)).1.form.service_name
        = st.form.service_name
    ∧ (submit st (.ok true) (.ok ()) (.ok l)).1.availability = neutralAvailability
    ∧ (submit st (.ok true) (.ok ()) (.ok l)).1.appointments = l
    ∧ (submit st (.ok true) (.ok ()) (.ok l)).2
        = [NetCall.check, NetCall.create, NetCall.listAppointments] := by
  simp [submit, hiso, fetchAppointments, neutralAvailability]

/-- C7 witness: the frame theorem at a concrete filled state. -/
theorem c7_witness :
    combineDateTime sampleState.form.start_date sampleState.form.start_time
      = Except.ok (some "2024-06-01T10:00:00.000Z")
    ∧ (submit sampleState (.ok true) (.ok ()) (.ok [])).1.availability
        = neutralAvailability :=
  ⟨by rfl,
    (c7_success_frame sampleState "2024-06-01T10:00:00.000Z" []
      (by rfl)).2.2.2.2.2.2.2.1⟩

/-! ## Claim C6 — probe supersession / stale availability -/

def ceKeyOld : ProbeKey :=
  { barber_id := "b1", start_time := "2024-06-01T10:00:00.000Z", duration_min := 30 }

def ceKeyNew : ProbeKey :=
  { barber_id := "b1", start_time := "2024-06-01T11:00:00.000Z", duration_min := 30 }

/-- An interleaving in which the probe for the newer instant completes before
the probe for the older instant. -/
def ceTrace : List ProbeEvent :=
  [.issue ceKeyOld, .issue ceKeyNew, .complete 1 (some true), .complete 0 (some false)]

/-- C6 counterexample: with two probes in flight for the same barber but
different instants, the older probe completes last and unconditionally
overwrites the availability status, so the UI displays availability for a key
other than the one currently typed — stale display is possible. -/
theorem c6_counterexample :
    staleDisplayed (runProbes ceTrace) = true
    ∧ (runProbes ceTrace).display = some (ceKeyOld, some false)
    ∧ (runProbes ceTrace).issued.getLast? = some ceKeyNew
    ∧ ceKeyOld ≠ ceKeyNew :=
  ⟨rfl, rfl, rfl, by decide⟩

theorem runProbes_snoc (es : List ProbeEvent) (e : ProbeEvent) :
    runProbes (es ++ [e]) = stepProbe (runProbes es) e := by
  simp [runProbes, List.foldl_append]

/-- C6 (amended): probe completions are applied last-write-wins by completion
order — a completion event for any already-issued probe overwrites the
displayed availability with that probe's key and result, regardless of any
probe issued after it; no supersession or cancellation keyed by
(resourceId, instant, duration) is implemented. -/
theorem c6_last_write_wins (es : List ProbeEvent) (i : Nat) (k : ProbeKey)
    (r : Option Bool) (h : (runProbes es).issued.get? i = some k) :
    (runProbes (es ++ [ProbeEvent.complete i r])).display = some (k, r) := by
  rw [runProbes_snoc]
  simp only [stepProbe, h]

/-- C6 witness: completing the single issued probe writes its key and result
to the display. -/
theorem c6_witness :
    (runProbes [ProbeEvent.issue ceKeyOld]).issued.get? 0 = some ceKeyOld
    ∧ (runProbes ([ProbeEvent.issue ceKeyOld] ++ [ProbeEvent.complete 0 none])).display
        = some (ceKeyOld, none) :=
  ⟨rfl, c6_last_write_wins [ProbeEvent.issue ceKeyOld] 0 ceKeyOld none rfl⟩

end Booking
